import Mathlib

/-!
Verification of the backdrop wallpaper downloader.

The development shallowly embeds the two cores of the program:

* the size-bounded eviction pass `delete_old_photos` of `src/bin/main.rs`
  and `src/bin/backdrop.rs` (the two binaries contain the same function,
  line for line), modelled over a snapshot of the storage directory;
* the concurrent acquisition pipeline: `Client::download_photo` of
  `src/unsplash/mod.rs`, the `Photo` accessors of
  `src/unsplash/models/photo.rs`, and the `download_photos` fan-out /
  join-all / persist sequence of `src/bin/backdrop.rs`.

Network and filesystem effects are made explicit: an environment maps an
HTTP request to its optional response, a filesystem is an association list
from paths to byte contents, and the completion order of the concurrently
spawned download tasks is an explicit permutation of the spawn indices.
A Rust panic (the `HashMap` index operator, the `unwrap` in the eviction
loop) is modelled by a dedicated `panicked` result, never by shortcutting
to a default value.
-/

namespace Backdrop

/-! ## Eviction model: `delete_old_photos` -/

/-- One directory entry as seen by `delete_old_photos` after
`read_dir()?.filter_map(|file| file.ok())`.  `len` is
`file.metadata().map(|m| m.len())` (`none` when the metadata read fails),
`ctime` is `metadata.created()` (`none` when the creation time cannot be
read), and `removeOk` tells whether `fs::remove_file(file.path())`
would succeed on this entry. -/
structure Entry where
  path : String
  len : Option Nat
  ctime : Option Nat
  removeOk : Bool
deriving DecidableEq, Repr

/-- The running total `size` of `delete_old_photos`:
`files.iter().filter_map(|file| file.metadata().ok()).map(|m| m.len()).sum()`.
Entries whose metadata cannot be read contribute nothing. -/
def readableSize (files : List Entry) : Nat :=
  (files.filterMap Entry.len).sum

/-- The key of `files.sort_by_key`:
`file.metadata().ok().and_then(|m| m.created().ok()).unwrap_or(UNIX_EPOCH)`.
A failed metadata or creation-time read sorts as the epoch (0), i.e. oldest. -/
def sortKey (e : Entry) : Nat :=
  match e.len with
  | none => 0
  | some _ => e.ctime.getD 0

/-- Rust `files.sort_by_key(...)`: a stable sort by `sortKey` ascending
(Rust's sort is stable; insertion sort by a total key order produces the
same, uniquely determined, stable result). -/
def sortEntries (files : List Entry) : List Entry :=
  files.insertionSort fun a b => sortKey a ≤ sortKey b

/-- Result of one eviction pass, together with the entries still present in
the directory afterwards.  `ioError` is an early `Err` return from the `?`
operators inside the loop; `panicked` is the `files.pop_front().unwrap()`
panic on an empty deque. -/
inductive EvictResult where
  | ok (remaining : List Entry)
  | ioError (remaining : List Entry)
  | panicked
deriving DecidableEq, Repr

/-- The `while size > config.max_size` loop of `delete_old_photos`: pop the
front entry, `fs::remove_file(file.path())?`, then
`size -= file.metadata()?.len()`.  A failing removal leaves the entry in
place and aborts; a failing metadata read aborts after the file is already
gone; popping an empty deque panics. -/
def evictLoop (maxSize : Nat) : Nat → List Entry → EvictResult
  | size, [] => if size ≤ maxSize then .ok [] else .panicked
  | size, f :: rest =>
    if size ≤ maxSize then .ok (f :: rest)
    else if f.removeOk then
      match f.len with
      | none => .ioError rest
      | some n => evictLoop maxSize (size - n) rest
    else .ioError (f :: rest)

/-- Function `delete_old_photos` of `src/bin/main.rs` (lines 80–113) and
`src/bin/backdrop.rs` (lines 83–116), over a snapshot `files` of the
directory listing.  `maxSize` is `config.max_size`.  Sum the readable
sizes; return at once when already within budget; otherwise sort
oldest-first and run the eviction loop. -/
def delete_old_photos (maxSize : Nat) (files : List Entry) : EvictResult :=
  if readableSize files ≤ maxSize then .ok files
  else evictLoop maxSize (readableSize files) (sortEntries files)

/-! ## HTTP model -/

/-- The error enum of `src/unsplash/error.rs`. -/
inductive Error where
  | InvalidApiKey
  | InvalidResponse
  | Request
  | Status (code : Nat)
deriving DecidableEq, Repr

/-- A GET request: the URL and the appended query parameters. -/
structure HttpRequest where
  url : String
  params : List (String × String)
deriving DecidableEq, Repr

/-- A received response: status code, and the result of reading the body
(`none` when `response.bytes()` / `response.json()` fails mid-transfer). -/
structure HttpResponse where
  status : Nat
  body : Option (List Nat)
deriving DecidableEq, Repr

/-- The network: what each request would receive.  `none` is a transport
failure of `send()`. -/
def Env : Type := HttpRequest → Option HttpResponse

/-- Reqwest `StatusCode::is_success()`: 2xx. -/
def statusIsSuccess (s : Nat) : Bool :=
  decide (200 ≤ s) && decide (s < 300)

/-- Function `Client::send_request` of `src/unsplash/mod.rs` (lines 208–216):
transport failure maps to `Error::Request`, a non-2xx status to
`Error::Status`. -/
def send_request (env : Env) (req : HttpRequest) : Except Error HttpResponse :=
  match env req with
  | none => .error .Request
  | some resp =>
    if statusIsSuccess resp.status then .ok resp else .error (.Status resp.status)

/-! ## Photo model: `src/unsplash/models/photo.rs` -/

/-- The deserialized `Photo`: its id and the `urls` and `links` string
maps, kept as association lists. -/
structure Photo where
  id : String
  urls : List (String × String)
  links : List (String × String)
deriving DecidableEq, Repr

/-- Rust `HashMap` indexing `map[key]`.  The real operator panics when the
key is absent; `none` models that panic. -/
def mapIndex (m : List (String × String)) (key : String) : Option String :=
  m.lookup key

/-- Accessor `Photo::file_url`: `&self.urls["raw"]` — panics (`none`) when
the `"raw"` key is missing. -/
def Photo.file_url (p : Photo) : Option String :=
  mapIndex p.urls "raw"

/-- Accessor `Photo::download_track_url`: `&self.links["download_location"]`
— panics (`none`) when the `"download_location"` key is missing. -/
def Photo.download_track_url (p : Photo) : Option String :=
  mapIndex p.links "download_location"

/-! ## Download parameters: `src/unsplash/mod.rs` -/

/-- The `Format` enum (lines 77–80). -/
inductive Format where
  | Png
  | Jpeg (quality : Nat)
deriving DecidableEq, Repr

/-- The `Resolution` enum (lines 84–87). -/
inductive Resolution where
  | Raw
  | Custom (width height : Nat)
deriving DecidableEq, Repr

/-- The `Download` struct (lines 90–93). -/
structure Download where
  format : Format
  resolution : Resolution
deriving DecidableEq, Repr

/-- Impl `ToQueryParams for Download` (lines 109–125): start from
`[("fm", "png")]`, and extend with width, height and fit only for a
custom resolution. -/
def Download.to_query_params (d : Download) : List (String × String) :=
  let params := [("fm", "png")]
  match d.resolution with
  | .Raw => params
  | .Custom width height =>
    params ++ [("w", toString width), ("h", toString height), ("fit", "min")]

/-! ## `Client::download_photo` -/

/-- Per-descriptor result.  `panicked` records that the Rust code would
panic (map indexing on a missing key) rather than return. -/
inductive Outcome (α : Type) where
  | ok (value : α)
  | err (e : Error)
  | panicked
deriving DecidableEq, Repr

/-- Whether an outcome is a success. -/
def Outcome.isOk {α : Type} : Outcome α → Bool
  | .ok _ => true
  | _ => false

/-- The observable requests issued by one download operation, in issue
order. -/
inductive Event where
  | track (url : String)
  | fetch (url : String) (params : List (String × String))
deriving DecidableEq, Repr

/-- Function `Client::download_photo` of `src/unsplash/mod.rs`
(lines 184–197),
returning the outcome together with the trace of issued requests: GET the
photo's `download_track_url` (no parameters), and only on its success GET
the photo's `file_url` with the download's query parameters, then read the
body.  Either accessor may panic on a missing map key. -/
def Client.download_photo (env : Env) (photo : Photo) (download : Download) :
    Outcome (List Nat) × List Event :=
  match photo.download_track_url with
  | none => (.panicked, [])
  | some trackUrl =>
    match send_request env ⟨trackUrl, []⟩ with
    | .error e => (.err e, [.track trackUrl])
    | .ok _ =>
      match photo.file_url with
      | none => (.panicked, [.track trackUrl])
      | some fileUrl =>
        match send_request env ⟨fileUrl, download.to_query_params⟩ with
        | .error e =>
          (.err e, [.track trackUrl, .fetch fileUrl download.to_query_params])
        | .ok resp =>
          match resp.body with
          | none =>
            (.err .InvalidResponse,
             [.track trackUrl, .fetch fileUrl download.to_query_params])
          | some data =>
            (.ok data, [.track trackUrl, .fetch fileUrl download.to_query_params])

/-! ## The acquisition batch: `download_photos` of `src/bin/backdrop.rs` -/

/-- The `Fetch` query variants (unsplash/mod.rs lines 44–47). -/
inductive Query where
  | Text (text : String)
  | Topic (idOrSlug : String)
deriving DecidableEq, Repr

/-- The `Fetch` struct (unsplash/mod.rs lines 50–53). -/
structure Fetch where
  count : Nat
  query : Option Query
deriving DecidableEq, Repr

/-- The binaries' `Config`: target folder, eviction budget, fetch criteria
and download parameters. -/
structure Config where
  folder : String
  max_size : Nat
  fetch : Fetch
  download : Download
deriving DecidableEq, Repr

/-- The body of one spawned task in `download_photos` of
`src/bin/backdrop.rs` (lines 62–66): run `client.download_photo` and pair
a success with its photo. -/
def downloadTask (env : Env) (download : Download) (photo : Photo) :
    Outcome (Photo × List Nat) :=
  match Client.download_photo env photo download with
  | (.ok data, _) => .ok (photo, data)
  | (.err e, _) => .err e
  | (.panicked, _) => .panicked

/-- Tokio `JoinSet::join_all`: every spawned task runs to completion and its
result is collected; `order` is the completion order, a permutation of the
spawn indices. -/
def joinAll {α : Type} (results : List α) (order : List Nat) : List α :=
  order.filterMap fun i => results.get? i

/-- The filesystem: an association list from paths to byte contents. -/
abbrev FS : Type := List (String × List Nat)

/-- Rust `fs::write` / `File::create` + `write_all`: create the file or
truncate and replace an existing one at the same path. -/
def fsWrite (fs : FS) (path : String) (data : List Nat) : FS :=
  match fs with
  | [] => [(path, data)]
  | (p, d) :: rest =>
    if p = path then (path, data) :: rest else (p, d) :: fsWrite rest path data

/-- Contents of the file at `path`, if any. -/
def fsLookup (fs : FS) (path : String) : Option (List Nat) :=
  match fs with
  | [] => none
  | (p, d) :: rest => if p = path then some d else fsLookup rest path

/-- The persistence loop of `download_photos` (backdrop.rs lines 72–78):
walk the collected outcomes; `let (photo, data) = photo?;` propagates the
first failed outcome, successes before it are written to
`<folder>/<id>.png`. -/
def persistLoop (folder : String) :
    List (Outcome (Photo × List Nat)) → FS → Outcome Unit × FS
  | [], fs => (.ok (), fs)
  | .ok (photo, data) :: rest, fs =>
    persistLoop folder rest (fsWrite fs (folder ++ "/" ++ photo.id ++ ".png") data)
  | .err e :: _, fs => (.err e, fs)
  | .panicked :: _, fs => (.panicked, fs)

/-- Function `download_photos` of `src/bin/backdrop.rs` (lines 52–81):
`fetch_photos` failure is propagated at once with no task spawned;
otherwise one task per photo is spawned, all are joined, and the outcomes
are persisted in completion order.  `fetchResult` is the environment's
answer to catalog resolution, `order` the completion order of the tasks. -/
def download_photos (env : Env) (config : Config)
    (fetchResult : Except Error (List Photo)) (order : List Nat) (fs : FS) :
    Outcome Unit × FS :=
  match fetchResult with
  | .error e => (.err e, fs)
  | .ok photos =>
    persistLoop config.folder
      (joinAll (photos.map (downloadTask env config.download)) order) fs

/-! ## Spec-side reformulations used for comparison -/

/-- Fuel-bounded variant of `evictLoop`, used to state the iteration bound
of the eviction loop: it performs at most `fuel` pops and answers `none`
when the fuel runs out before the loop exits. -/
def evictLoopFuel (maxSize : Nat) : Nat → Nat → List Entry → Option EvictResult
  | _, size, [] => some (if size ≤ maxSize then .ok [] else .panicked)
  | fuel, size, f :: rest =>
    if size ≤ maxSize then some (.ok (f :: rest))
    else if fuel = 0 then none
    else if f.removeOk then
      match f.len with
      | none => some (.ioError rest)
      | some n => evictLoopFuel maxSize (fuel - 1) (size - n) rest
    else some (.ioError (f :: rest))

/-- The filesystem effect of one collected outcome: a success is written to
`<folder>/<id>.png`, anything else writes nothing. -/
def writeOutcome (folder : String) (fs : FS) : Outcome (Photo × List Nat) → FS
  | .ok (photo, data) => fsWrite fs (folder ++ "/" ++ photo.id ++ ".png") data
  | _ => fs

/-- Closed-form description of `persistLoop`, following the spec's words:
exactly the successes preceding the first failed outcome are persisted, and
the result is that first failure (or success when every outcome
succeeded).  Proved equal to `persistLoop` below. -/
def persistSpec (folder : String) (outs : List (Outcome (Photo × List Nat)))
    (fs : FS) : Outcome Unit × FS :=
  let fsW := (outs.takeWhile Outcome.isOk).foldl (writeOutcome folder) fs
  match outs.dropWhile Outcome.isOk with
  | [] => (.ok (), fsW)
  | .ok _ :: _ => (.ok (), fsW)
  | .err e :: _ => (.err e, fsW)
  | .panicked :: _ => (.panicked, fsW)

/-! ## Concrete objects used in the closed instances -/

/-- A photo with both map keys present; content at `fA`, tracking at `tA`. -/
def photoA : Photo := ⟨"pA", [("raw", "fA")], [("download_location", "tA")]⟩

/-- A second complete photo; content at `fB`, tracking at `tB`. -/
def photoB : Photo := ⟨"pB", [("raw", "fB")], [("download_location", "tB")]⟩

/-- A photo whose `urls` map lacks the `"raw"` key. -/
def photoNoRaw : Photo := ⟨"pN", [], [("download_location", "tN")]⟩

/-- A network where every request succeeds with status 200 and body
`[1, 2, 3]`. -/
def envHappy : Env := fun _ => some ⟨200, some [1, 2, 3]⟩

/-- A network where every request fails at the transport level. -/
def envAllFail : Env := fun _ => none

/-- A network where exactly photo A's tracking request fails at the
transport level; everything else succeeds with body `[7]`. -/
def envFailA : Env := fun req =>
  if req.url = "tA" then none else some ⟨200, some [7]⟩

/-- A configuration requesting the lossless format at raw resolution. -/
def cfgPng : Config := ⟨"dir", 100, ⟨10, none⟩, ⟨.Png, .Raw⟩⟩

/-- A configuration requesting the Jpeg format at raw resolution. -/
def cfgJpeg : Config := ⟨"dir", 100, ⟨10, none⟩, ⟨.Jpeg 80, .Raw⟩⟩

/-! ## Eviction lemmas -/

theorem readableSize_cons (f : Entry) (rest : List Entry) :
    readableSize (f :: rest) = f.len.getD 0 + readableSize rest := by
  cases hf : f.len <;> simp [readableSize, List.filterMap_cons, hf]

theorem readableSize_perm {files₁ files₂ : List Entry} (h : files₁.Perm files₂) :
    readableSize files₁ = readableSize files₂ :=
  (h.filterMap Entry.len).sum_eq

theorem sortEntries_perm (files : List Entry) : (sortEntries files).Perm files :=
  List.perm_insertionSort _ files

theorem evictLoop_ok_le (maxSize : Nat) :
    ∀ (files : List Entry) (size : Nat) (r : List Entry),
      size = readableSize files → evictLoop maxSize size files = .ok r →
      readableSize r ≤ maxSize := by
  intro files
  induction files with
  | nil =>
    intro size r hs h
    simp only [evictLoop] at h
    split at h
    · simp only [EvictResult.ok.injEq] at h
      subst h
      simp [readableSize]
    · simp at h
  | cons f rest ih =>
    intro size r hs h
    simp only [evictLoop] at h
    split at h
    next hle =>
      simp only [EvictResult.ok.injEq] at h
      subst h
      exact hs ▸ hle
    next hgt =>
      split at h
      next hrem =>
        cases hf : f.len with
        | none => simp [hf] at h
        | some n =>
          simp only [hf] at h
          refine ih (size - n) r ?_ h
          rw [hs, readableSize_cons, hf]
          simp only [Option.getD_some]
          omega
      next hrem => simp at h


theorem evictLoop_ne_panicked (maxSize : Nat) :
    ∀ (files : List Entry) (size : Nat),
      size = readableSize files → evictLoop maxSize size files ≠ .panicked := by
  intro files
  induction files with
  | nil =>
    intro size hs
    have hz : size = 0 := by simpa [readableSize] using hs
    simp [evictLoop, hz]
  | cons f rest ih =>
    intro size hs
    simp only [evictLoop]
    split
    · simp
    · split
      · cases hf : f.len with
        | none => simp [hf]
        | some n =>
          simp only [hf]
          refine ih (size - n) ?_
          rw [hs, readableSize_cons, hf]
          simp only [Option.getD_some]
          omega
      · simp

theorem delete_old_photos_noop {maxSize : Nat} {files : List Entry}
    (h : readableSize files ≤ maxSize) :
    delete_old_photos maxSize files = .ok files := by
  unfold delete_old_photos
  exact if_pos h

theorem delete_old_photos_ok_le {maxSize : Nat} {files r : List Entry}
    (h : delete_old_photos maxSize files = .ok r) : readableSize r ≤ maxSize := by
  unfold delete_old_photos at h
  split at h
  next hle =>
    simp only [EvictResult.ok.injEq] at h
    subst h
    exact hle
  next hgt =>
    exact evictLoop_ok_le maxSize (sortEntries files) (readableSize files) r
      ((readableSize_perm (sortEntries_perm files)).symm) h

theorem delete_old_photos_ne_panicked (maxSize : Nat) (files : List Entry) :
    delete_old_photos maxSize files ≠ .panicked := by
  unfold delete_old_photos
  split
  · simp
  · exact evictLoop_ne_panicked maxSize (sortEntries files) (readableSize files)
      ((readableSize_perm (sortEntries_perm files)).symm)

theorem evictLoopFuel_complete (maxSize : Nat) :
    ∀ (files : List Entry) (fuel size : Nat), files.length ≤ fuel →
      evictLoopFuel maxSize fuel size files = some (evictLoop maxSize size files) := by
  intro files
  induction files with
  | nil => intro fuel size _; rfl
  | cons f rest ih =>
    intro fuel size hlen
    have hlen' : rest.length + 1 ≤ fuel := by simpa using hlen
    by_cases hle : size ≤ maxSize
    · simp [evictLoopFuel, evictLoop, hle]
    · have hfuel : ¬fuel = 0 := by omega
      by_cases hrem : f.removeOk
      · cases hf : f.len with
        | none => simp [evictLoopFuel, evictLoop, hle, hrem, hf, hfuel]
        | some n =>
          simp only [evictLoopFuel, evictLoop, hle, hrem, hf, hfuel, if_false,
            if_true, ite_true, ite_false]
          exact ih (fuel - 1) (size - n) (by omega)
      · simp [evictLoopFuel, evictLoop, hle, hrem, hfuel]

/-! ## Claims about the eviction pass -/

/-- C3: whenever the eviction pass returns success, the total byte size of
the directory's remaining readable entries is at most the configured
budget; and on the spec's concrete instance — entries of sizes 10, 20, 30
ordered oldest to newest with budget 25 — all three entries are removed
and the remaining total is 0. -/
theorem C3_eviction_within_budget :
    (∀ (maxSize : Nat) (files r : List Entry),
        delete_old_photos maxSize files = .ok r → readableSize r ≤ maxSize) ∧
      delete_old_photos 25
          [⟨"a", some 10, some 1, true⟩, ⟨"b", some 20, some 2, true⟩,
            ⟨"c", some 30, some 3, true⟩] = .ok [] ∧
      readableSize ([] : List Entry) = 0 :=
  ⟨fun _ _ _ h => delete_old_photos_ok_le h, by decide, rfl⟩

/-- Witness for C3 at the spec's concrete instance. -/
theorem C3_eviction_within_budget_witness : readableSize ([] : List Entry) ≤ 25 :=
  C3_eviction_within_budget.1 25
    [⟨"a", some 10, some 1, true⟩, ⟨"b", some 20, some 2, true⟩,
      ⟨"c", some 30, some 3, true⟩] [] (by decide)

/-- C4 counterexample: with budget 25, a readable entry of size 30 created
at time 5, and an entry `u` whose metadata cannot be read, the pass sorts
`u` as oldest, deletes it (it is absent from the remaining entries), and
then aborts the whole pass with an I/O error when `file.metadata()?` fails
— contradicting the claim that unreadable entries are never deleted and
that a metadata read failure never fails the pass. -/
theorem C4_counterexample :
    delete_old_photos 25
        [⟨"b", some 30, some 5, true⟩, ⟨"u", none, none, true⟩] =
      .ioError [⟨"b", some 30, some 5, true⟩] := by decide

/-- C4 amended: entries with unreadable metadata are excluded from the
total-size sum, but not from the eviction candidate set: they sort as if
created at the epoch (oldest, hence evicted first), and when the loop pops
such an entry the file is removed and the subsequent metadata read aborts
the pass with an error. -/
theorem C4_unreadable_metadata_amended :
    (∀ (e : Entry) (files : List Entry), e.len = none →
        readableSize (e :: files) = readableSize files) ∧
      (∀ e : Entry, e.len = none → sortKey e = 0) ∧
      ∀ (maxSize size : Nat) (e : Entry) (rest : List Entry),
        e.len = none → e.removeOk = true → ¬size ≤ maxSize →
          evictLoop maxSize size (e :: rest) = .ioError rest := by
  refine ⟨fun e files he => ?_, fun e he => ?_, fun maxSize size e rest he hrem hgt => ?_⟩
  · rw [readableSize_cons, he]
    simp
  · simp [sortKey, he]
  · simp [evictLoop, he, hrem, hgt]

/-- Witness for the amended C4 at a concrete unreadable entry. -/
theorem C4_unreadable_metadata_amended_witness :
    readableSize [⟨"u", none, none, true⟩] = readableSize [] ∧
      sortKey ⟨"u", none, none, true⟩ = 0 ∧
      evictLoop 25 30 [⟨"u", none, none, true⟩] = .ioError [] :=
  ⟨C4_unreadable_metadata_amended.1 ⟨"u", none, none, true⟩ [] rfl,
   C4_unreadable_metadata_amended.2.1 ⟨"u", none, none, true⟩ rfl,
   C4_unreadable_metadata_amended.2.2 25 30 ⟨"u", none, none, true⟩ [] rfl rfl
     (by decide)⟩

/-- C5: the eviction pass is total for every directory snapshot and budget
— it never reaches the `unwrap` panic on an empty deque — and the loop
performs at most `len(entries)` iterations: giving the fuel-bounded loop
exactly `files.length` units of fuel never exhausts it (each iteration
pops exactly one entry, so the remaining-entry count strictly decreases). -/
theorem C5_eviction_terminates (maxSize : Nat) (files : List Entry) :
    delete_old_photos maxSize files ≠ .panicked ∧
      evictLoopFuel maxSize files.length (readableSize files) (sortEntries files) =
        some (evictLoop maxSize (readableSize files) (sortEntries files)) :=
  ⟨delete_old_photos_ne_panicked maxSize files,
   evictLoopFuel_complete maxSize (sortEntries files) files.length
     (readableSize files) (Nat.le_of_eq (sortEntries_perm files).length_eq)⟩

/-- C9: when the directory's readable total is already at or under budget
the pass succeeds touching nothing, and the pass is idempotent: a state it
returns with success is a fixed point of a second pass. -/
theorem C9_eviction_noop_idempotent :
    (∀ (maxSize : Nat) (files : List Entry), readableSize files ≤ maxSize →
        delete_old_photos maxSize files = .ok files) ∧
      ∀ (maxSize : Nat) (files r : List Entry),
        delete_old_photos maxSize files = .ok r →
          delete_old_photos maxSize r = .ok r :=
  ⟨fun _ _ h => delete_old_photos_noop h,
   fun _ _ _ h => delete_old_photos_noop (delete_old_photos_ok_le h)⟩

/-- Witness for C9: entries totalling 80 under budget 100 are untouched by
a first pass, and a second pass on its result changes nothing either. -/
theorem C9_eviction_noop_idempotent_witness :
    delete_old_photos 100 [⟨"a", some 80, some 1, true⟩] =
      .ok [⟨"a", some 80, some 1, true⟩] :=
  C9_eviction_noop_idempotent.2 100 [⟨"a", some 80, some 1, true⟩]
    [⟨"a", some 80, some 1, true⟩]
    (C9_eviction_noop_idempotent.1 100 [⟨"a", some 80, some 1, true⟩] (by decide))

/-! ## Acquisition lemmas -/

theorem filterMap_get?_range {α : Type} (l : List α) :
    (List.range l.length).filterMap l.get? = l := by
  induction l with
  | nil => simp
  | cons a t ih =>
    have hcomp : ((a :: t).get? ∘ Nat.succ) = t.get? := by
      funext i
      rfl
    simp [List.range_succ_eq_map, List.filterMap_cons, List.filterMap_map, hcomp,
      ih]

theorem joinAll_perm {α : Type} (results : List α) (order : List Nat)
    (h : order.Perm (List.range results.length)) :
    (joinAll results order).Perm results := by
  unfold joinAll
  have h2 := h.filterMap results.get?
  rwa [filterMap_get?_range] at h2

theorem joinAll_length {α : Type} (results : List α) (order : List Nat)
    (h : order.Perm (List.range results.length)) :
    (joinAll results order).length = results.length :=
  (joinAll_perm results order h).length_eq

theorem download_photo_ok_inv {env : Env} {photo : Photo} {download : Download}
    {data : List Nat}
    (h : (Client.download_photo env photo download).1 = .ok data) :
    ∃ trackUrl fileUrl respT respF,
      photo.download_track_url = some trackUrl ∧
      send_request env ⟨trackUrl, []⟩ = .ok respT ∧
      photo.file_url = some fileUrl ∧
      send_request env ⟨fileUrl, download.to_query_params⟩ = .ok respF ∧
      respF.body = some data ∧
      (Client.download_photo env photo download).2 =
        [.track trackUrl, .fetch fileUrl download.to_query_params] := by
  unfold Client.download_photo at h
  cases ht : photo.download_track_url with
  | none => simp [ht] at h
  | some trackUrl =>
    simp only [ht] at h
    cases hsT : send_request env ⟨trackUrl, []⟩ with
    | error e => simp [hsT] at h
    | ok respT =>
      simp only [hsT] at h
      cases hf : photo.file_url with
      | none => simp [hf] at h
      | some fileUrl =>
        simp only [hf] at h
        cases hsF : send_request env ⟨fileUrl, download.to_query_params⟩ with
        | error e => simp [hsF] at h
        | ok respF =>
          simp only [hsF] at h
          cases hb : respF.body with
          | none => simp [hb] at h
          | some d =>
            simp only [hb, Outcome.ok.injEq] at h
            subst h
            exact ⟨trackUrl, fileUrl, respT, respF, rfl, hsT, rfl, hsF, hb, by
              unfold Client.download_photo
              simp [ht, hsT, hf, hsF, hb]⟩

theorem download_photo_track_err {env : Env} {photo : Photo} {download : Download}
    {trackUrl : String} {e : Error}
    (ht : photo.download_track_url = some trackUrl)
    (hs : send_request env ⟨trackUrl, []⟩ = .error e) :
    Client.download_photo env photo download = (.err e, [.track trackUrl]) := by
  unfold Client.download_photo
  simp only [ht, hs]

theorem download_photo_events (env : Env) (photo : Photo) (download : Download) :
    (Client.download_photo env photo download).2 = [] ∨
      (∃ trackUrl, (Client.download_photo env photo download).2 =
        [Event.track trackUrl]) ∨
      ∃ trackUrl fileUrl, (Client.download_photo env photo download).2 =
        [Event.track trackUrl, Event.fetch fileUrl download.to_query_params] := by
  cases ht : photo.download_track_url with
  | none =>
    exact Or.inl (by unfold Client.download_photo; simp [ht])
  | some trackUrl =>
    cases hsT : send_request env ⟨trackUrl, []⟩ with
    | error e =>
      exact Or.inr (Or.inl ⟨trackUrl, by
        unfold Client.download_photo; simp [ht, hsT]⟩)
    | ok respT =>
      cases hf : photo.file_url with
      | none =>
        exact Or.inr (Or.inl ⟨trackUrl, by
          unfold Client.download_photo; simp [ht, hsT, hf]⟩)
      | some fileUrl =>
        cases hsF : send_request env ⟨fileUrl, download.to_query_params⟩ with
        | error e =>
          exact Or.inr (Or.inr ⟨trackUrl, fileUrl, by
            unfold Client.download_photo; simp [ht, hsT, hf, hsF]⟩)
        | ok respF =>
          cases hb : respF.body with
          | none =>
            exact Or.inr (Or.inr ⟨trackUrl, fileUrl, by
              unfold Client.download_photo; simp [ht, hsT, hf, hsF, hb]⟩)
          | some d =>
            exact Or.inr (Or.inr ⟨trackUrl, fileUrl, by
              unfold Client.download_photo; simp [ht, hsT, hf, hsF, hb]⟩)

theorem persistLoop_eq_persistSpec (folder : String) :
    ∀ (outs : List (Outcome (Photo × List Nat))) (fs : FS),
      persistLoop folder outs fs = persistSpec folder outs fs := by
  intro outs
  induction outs with
  | nil => intro fs; rfl
  | cons o rest ih =>
    intro fs
    cases o with
    | ok pd =>
      obtain ⟨photo, data⟩ := pd
      have h2 : persistSpec folder (.ok (photo, data) :: rest) fs =
          persistSpec folder rest
            (fsWrite fs (folder ++ "/" ++ photo.id ++ ".png") data) := by
        simp [persistSpec, Outcome.isOk, writeOutcome]
      rw [show persistLoop folder (.ok (photo, data) :: rest) fs =
            persistLoop folder rest
              (fsWrite fs (folder ++ "/" ++ photo.id ++ ".png") data) from rfl,
        h2, ih]
    | err e => rfl
    | panicked => rfl

theorem fsLookup_fsWrite_self (fs : FS) (path : String) (data : List Nat) :
    fsLookup (fsWrite fs path data) path = some data := by
  induction fs with
  | nil => simp [fsWrite, fsLookup]
  | cons kv rest ih =>
    obtain ⟨p, d⟩ := kv
    by_cases hp : p = path
    · simp [fsWrite, fsLookup, hp]
    · simp [fsWrite, fsLookup, hp, ih]

theorem fsLookup_fsWrite_other (fs : FS) (path other : String) (data : List Nat)
    (h : path ≠ other) :
    fsLookup (fsWrite fs path data) other = fsLookup fs other := by
  induction fs with
  | nil => simp [fsWrite, fsLookup, h]
  | cons kv rest ih =>
    obtain ⟨p, d⟩ := kv
    by_cases hp : p = path
    · subst hp
      simp [fsWrite, fsLookup, h]
    · by_cases ho : p = other
      · simp [fsWrite, fsLookup, hp, ho, Ne.symm h]
      · simp [fsWrite, fsLookup, hp, ho, ih]

/-! ## Claims about the acquisition pipeline -/

/-- C1: the concurrent acquisition returns exactly one outcome per input
descriptor: for any completion order (any permutation of the spawn
indices), the list collected by join-all has length N and is a permutation
of the list of per-descriptor outcomes — no outcome dropped or duplicated,
however many individual downloads fail. -/
theorem C1_one_outcome_per_descriptor (env : Env) (download : Download)
    (photos : List Photo) (order : List Nat)
    (h : order.Perm (List.range photos.length)) :
    (joinAll (photos.map (downloadTask env download)) order).length =
        photos.length ∧
      (joinAll (photos.map (downloadTask env download)) order).Perm
        (photos.map (downloadTask env download)) := by
  have hlen : order.Perm
      (List.range (photos.map (downloadTask env download)).length) := by
    simpa using h
  refine ⟨?_, joinAll_perm _ order hlen⟩
  rw [joinAll_length _ order hlen, List.length_map]

/-- Witness for C1: two photos, completion order reversed, one download
failing — still exactly two outcomes, a permutation of the per-photo
ones. -/
theorem C1_one_outcome_per_descriptor_witness :
    (joinAll ([photoA, photoB].map (downloadTask envFailA ⟨.Png, .Raw⟩))
          [1, 0]).length = 2 ∧
      (joinAll ([photoA, photoB].map (downloadTask envFailA ⟨.Png, .Raw⟩))
          [1, 0]).Perm
        ([photoA, photoB].map (downloadTask envFailA ⟨.Png, .Raw⟩)) :=
  C1_one_outcome_per_descriptor envFailA ⟨.Png, .Raw⟩ [photoA, photoB] [1, 0]
    (by decide)

/-- C2: notify-before-fetch.  (i) For a successful outcome the issued
trace is exactly the tracking request strictly followed by the content
fetch, and the tracking request was accepted.  (ii) When the tracking
request fails, that descriptor's outcome is that failure and no fetch
event is issued for it.  (iii) In a batch, the j-th outcome is a function
of the j-th photo alone, so such a failure affects no other outcome. -/
theorem C2_notify_before_fetch (env : Env) (photo : Photo) (download : Download) :
    (∀ data, (Client.download_photo env photo download).1 = .ok data →
        ∃ trackUrl fileUrl respT,
          photo.download_track_url = some trackUrl ∧
          send_request env ⟨trackUrl, []⟩ = .ok respT ∧
          (Client.download_photo env photo download).2 =
            [.track trackUrl, .fetch fileUrl download.to_query_params]) ∧
      (∀ trackUrl e, photo.download_track_url = some trackUrl →
        send_request env ⟨trackUrl, []⟩ = .error e →
          Client.download_photo env photo download =
            (.err e, [.track trackUrl])) ∧
      ∀ (photos : List Photo) (j : Nat),
        (photos.map (downloadTask env download)).get? j =
          (photos.get? j).map (downloadTask env download) := by
  refine ⟨?_, ?_, ?_⟩
  · intro data h
    obtain ⟨trackUrl, fileUrl, respT, respF, h1, h2, h3, h4, h5, h6⟩ :=
      download_photo_ok_inv h
    exact ⟨trackUrl, fileUrl, respT, h1, h2, h6⟩
  · intro trackUrl e ht hs
    exact download_photo_track_err ht hs
  · intro photos j
    simp [List.get?_map]

/-- Witness for C2: photo A under a network where its tracking request
fails — the outcome is the typed transport error and the trace holds only
the tracking event, no fetch. -/
theorem C2_notify_before_fetch_witness :
    Client.download_photo envAllFail photoA ⟨.Png, .Raw⟩ =
      (.err .Request, [.track "tA"]) :=
  (C2_notify_before_fetch envAllFail photoA ⟨.Png, .Raw⟩).2.1 "tA" .Request
    (by decide) rfl

/-- C6 counterexample: with photo A's tracking request failing and photo
B's download fully succeeding, `download_photos` propagates photo A's
per-item error as the batch result and persists nothing — photo B's
successful payload is not written — refuting the claim that per-item
errors never abort the batch and that the other items' files are still
persisted. -/
theorem C6_counterexample :
    download_photos envFailA cfgPng (.ok [photoA, photoB]) [0, 1] [] =
        (.err .Request, []) ∧
      downloadTask envFailA cfgPng.download photoB = .ok (photoB, [7]) := by
  constructor <;> decide

/-- C6 amended: catalog resolution failure is batch-fatal with nothing
persisted; every download task still runs to completion and join-all
collects exactly one outcome per descriptor; but per-item failures are
not captured per item: persistence stops at the first failed outcome in
completion order — exactly the successes preceding it are written — and
`download_photos` returns that failure's error. -/
theorem C6_batch_abort_amended (env : Env) (config : Config) (fs : FS) :
    (∀ (e : Error) (order : List Nat),
        download_photos env config (.error e) order fs = (.err e, fs)) ∧
      (∀ (photos : List Photo) (order : List Nat),
        order.Perm (List.range photos.length) →
          (joinAll (photos.map (downloadTask env config.download))
              order).length = photos.length) ∧
      ∀ (photos : List Photo) (order : List Nat),
        download_photos env config (.ok photos) order fs =
          persistSpec config.folder
            (joinAll (photos.map (downloadTask env config.download)) order) fs := by
  refine ⟨fun e order => rfl, fun photos order h => ?_, fun photos order => ?_⟩
  · rw [joinAll_length _ order (by simpa using h), List.length_map]
  · exact persistLoop_eq_persistSpec config.folder _ fs

/-- Witness for the amended C6 at a concrete batch. -/
theorem C6_batch_abort_amended_witness :
    (joinAll ([photoA, photoB].map (downloadTask envFailA cfgPng.download))
        [0, 1]).length = 2 :=
  (C6_batch_abort_amended envFailA cfgPng []).2.1 [photoA, photoB] [0, 1]
    (by decide)

/-- C7 counterexample: for the original (`Raw`) resolution the content
fetch does append a query parameter — the fixed format parameter
`fm=png` — so the parameter list is not empty, refuting "no query
parameters for the original resolution". -/
theorem C7_counterexample :
    Download.to_query_params ⟨.Png, .Raw⟩ = [("fm", "png")] ∧
      Download.to_query_params ⟨.Png, .Raw⟩ ≠ [] := by
  constructor
  · rfl
  · decide

/-- C7 amended: the content fetch always carries the fixed parameter
`fm=png`, regardless of the requested format: exactly that one parameter
for the Raw resolution, and exactly `fm`, `w`, `h`, `fit=min` for a
custom resolution; moreover any fetch event issued by
`Client::download_photo` carries precisely `download.to_query_params`. -/
theorem C7_query_params_amended (download : Download) :
    (download.resolution = .Raw → download.to_query_params = [("fm", "png")]) ∧
      (∀ width height, download.resolution = .Custom width height →
        download.to_query_params =
          [("fm", "png"), ("w", toString width), ("h", toString height),
            ("fit", "min")]) ∧
      ∀ (env : Env) (photo : Photo) (url : String)
        (params : List (String × String)),
        Event.fetch url params ∈ (Client.download_photo env photo download).2 →
          params = download.to_query_params := by
  refine ⟨fun h => ?_, fun width height h => ?_,
    fun env photo url params hmem => ?_⟩
  · simp [Download.to_query_params, h]
  · simp [Download.to_query_params, h]
  · rcases download_photo_events env photo download with h0 | ⟨t, h1⟩ | ⟨t, f, h2⟩
    · rw [h0] at hmem
      simp at hmem
    · rw [h1] at hmem
      simp at hmem
    · rw [h2] at hmem
      rcases List.mem_cons.mp hmem with h | h
      · exact absurd h (by simp)
      · rcases List.mem_cons.mp h with h3 | h3
        · simp only [Event.fetch.injEq] at h3
          exact h3.2
        · exact absurd h3 (List.not_mem_nil _)

/-- Witness for the amended C7 at both resolutions. -/
theorem C7_query_params_amended_witness :
    Download.to_query_params ⟨.Png, .Raw⟩ = [("fm", "png")] ∧
      Download.to_query_params ⟨.Jpeg 80, .Custom 1920 1080⟩ =
        [("fm", "png"), ("w", "1920"), ("h", "1080"), ("fit", "min")] :=
  ⟨(C7_query_params_amended ⟨.Png, .Raw⟩).1 rfl,
   (C7_query_params_amended ⟨.Jpeg 80, .Custom 1920 1080⟩).2.1 1920 1080 rfl⟩

/-- C8 counterexample: requesting the Jpeg format still persists to a
`.png` path — the extension is hard-coded, not derived from the requested
format: a batch configured with `Format::Jpeg` writes `dir/pA.png`. -/
theorem C8_counterexample :
    download_photos envHappy cfgJpeg (.ok [photoA]) [0] [] =
        (.ok (), [("dir/pA.png", [1, 2, 3])]) ∧
      cfgJpeg.download.format = .Jpeg 80 := by
  constructor <;> decide

/-- C8 amended: every successful outcome is persisted to
`<folder>/<id>.png` — the `.png` extension is hard-coded regardless of the
requested format — and persistence is an overwrite, idempotent by
identifier: after a write, the file at that path holds exactly the new
payload and every other path is untouched. -/
theorem C8_persist_path_overwrite_amended :
    (∀ (folder : String) (photo : Photo) (data : List Nat)
        (rest : List (Outcome (Photo × List Nat))) (fs : FS),
        persistLoop folder (.ok (photo, data) :: rest) fs =
          persistLoop folder rest
            (fsWrite fs (folder ++ "/" ++ photo.id ++ ".png") data)) ∧
      (∀ (fs : FS) (path : String) (data : List Nat),
        fsLookup (fsWrite fs path data) path = some data) ∧
      ∀ (fs : FS) (path other : String) (data : List Nat), path ≠ other →
        fsLookup (fsWrite fs path data) other = fsLookup fs other :=
  ⟨fun _ _ _ _ _ => rfl, fsLookup_fsWrite_self, fsLookup_fsWrite_other⟩

/-- Witness for the amended C8: overwriting an existing `dir/pA.png`
replaces its contents and leaves other paths untouched. -/
theorem C8_persist_path_overwrite_amended_witness :
    fsLookup (fsWrite [("dir/pA.png", [9])] "dir/pA.png" [1, 2, 3])
        "dir/pA.png" = some [1, 2, 3] ∧
      fsLookup (fsWrite [("dir/pA.png", [9])] "dir/pA.png" [1, 2, 3]) "other" =
        fsLookup [("dir/pA.png", [9])] "other" :=
  ⟨C8_persist_path_overwrite_amended.2.1 [("dir/pA.png", [9])] "dir/pA.png"
     [1, 2, 3],
   C8_persist_path_overwrite_amended.2.2 [("dir/pA.png", [9])] "dir/pA.png"
     "other" [1, 2, 3] (by decide)⟩

/-- C10 counterexample: a photo whose `urls` map lacks `"raw"` does make
`Photo::file_url` panic, but `Client::download_photo` applied to that
photo need not panic: when the earlier tracking request fails, it returns
the typed transport error without ever reaching the indexing. -/
theorem C10_counterexample :
    photoNoRaw.file_url = none ∧
      Client.download_photo envAllFail photoNoRaw ⟨.Png, .Raw⟩ =
        (.err .Request, [.track "tN"]) := by
  constructor <;> decide

/-- C10 amended: the accessors panic exactly when their key is missing,
and `Client::download_photo` panics whenever the indexing is reached: at
once when `links` lacks `"download_location"`, and — provided the
tracking request succeeds — when `urls` lacks `"raw"`; totality of
`download_photo` over all environments therefore requires both keys. -/
theorem C10_missing_key_panics_amended :
    (∀ p : Photo, mapIndex p.urls "raw" = none → p.file_url = none) ∧
      (∀ p : Photo, mapIndex p.links "download_location" = none →
        p.download_track_url = none) ∧
      (∀ (env : Env) (p : Photo) (d : Download), p.download_track_url = none →
        Client.download_photo env p d = (.panicked, [])) ∧
      ∀ (env : Env) (p : Photo) (d : Download) (trackUrl : String)
        (respT : HttpResponse),
        p.download_track_url = some trackUrl →
        send_request env ⟨trackUrl, []⟩ = .ok respT →
        p.file_url = none →
          Client.download_photo env p d = (.panicked, [.track trackUrl]) := by
  refine ⟨fun p h => h, fun p h => h, fun env p d h => ?_,
    fun env p d trackUrl respT ht hs hf => ?_⟩
  · unfold Client.download_photo
    simp [h]
  · unfold Client.download_photo
    simp [ht, hs, hf]

/-- Witness for the amended C10: both panic shapes at concrete photos. -/
theorem C10_missing_key_panics_amended_witness :
    Client.download_photo envHappy ⟨"x", [], []⟩ ⟨.Png, .Raw⟩ =
        (.panicked, []) ∧
      Client.download_photo envHappy photoNoRaw ⟨.Png, .Raw⟩ =
        (.panicked, [.track "tN"]) :=
  ⟨C10_missing_key_panics_amended.2.2.1 envHappy ⟨"x", [], []⟩ ⟨.Png, .Raw⟩ rfl,
   C10_missing_key_panics_amended.2.2.2 envHappy photoNoRaw ⟨.Png, .Raw⟩ "tN"
     ⟨200, some [1, 2, 3]⟩ (by decide) rfl (by decide)⟩

end Backdrop
